import Mathlib

/-
Verification of the store-locator scraping pipeline in main.py.

The pipeline is embedded shallowly:
- Python dicts become association lists (keys are strings, insertion order
  preserved; `getVal`, `setItem`, `setdefault` mirror dict lookup, item
  assignment and `dict.setdefault`).
- Network calls (map search, store detail, dealer detail) and the
  BeautifulSoup CSS-selector capability become oracle functions passed in;
  `none` models any failure (network error, non-2xx status, malformed JSON,
  or no element matching the selector).
- The float arithmetic of the grid generator is modelled over ℚ (the
  configured bounds and the 1.5-degree step are all exactly representable,
  so rational arithmetic coincides with the source's float arithmetic).
- Exceptions become `Except String` values; the CSV file becomes the list
  of rows passed to the writer.
-/

set_option maxHeartbeats 1000000

namespace HH

/-- Association-list model of a Python dict with string keys. -/
abbrev Dict (V : Type) := List (String × V)

/-- Python dict lookup `d.get(k)`: value at the first occurrence of key `k`. -/
def getVal {V : Type} : Dict V → String → Option V
  | [], _ => none
  | (k', v) :: rest, k => if k' = k then some v else getVal rest k

/-- Python dict assignment `d[k] = v`: replace in place if present, append if absent. -/
def setItem {V : Type} : Dict V → String → V → Dict V
  | [], k, v => [(k, v)]
  | (k', v') :: rest, k, v =>
      if k' = k then (k, v) :: rest else (k', v') :: setItem rest k v

/-- Python dict `d.setdefault(k, v)`: add `(k, v)` only when `k` is absent. -/
def setdefault {V : Type} (m : Dict V) (k : String) (v : V) : Dict V :=
  match getVal m k with
  | some _ => m
  | none => m ++ [(k, v)]

/-- The fill-only merge loop `for k, v in payload.items(): marker.setdefault(k, v)`
from `fetch_store_data` (main.py lines 113-114 and 126-127). -/
def mergePayload {V : Type} (m p : Dict V) : Dict V :=
  p.foldl (fun acc kv => setdefault acc kv.1 kv.2) m

/-- A marker / detail payload: a Python dict with string values. -/
abbrev Marker := Dict String

abbrev Payload := Dict String

/-- One network request made by `fetch_store_data`, for call-trace bookkeeping. -/
inductive DetailCall where
  | store
  | dealer
deriving DecidableEq

/-- Model of `fetch_store_data(store_id, marker)` (main.py lines 104-132).
`t1` is the outcome of the store-endpoint request (`some payload` iff the
GET succeeded, `raise_for_status` passed and `.json()` parsed), `t2`
likewise for the dealer endpoint.  The second component records the
endpoint calls actually issued, in order.  The `try/except` structure of
the source means: a tier-1 success merges and returns without touching
tier 2; any tier-1 failure falls into the dealer attempt; a tier-2 failure
is swallowed (`except Exception: pass`) leaving the marker unchanged. -/
def fetch_store_data {V : Type} (t1 t2 : Option (Dict V)) (m : Dict V) :
    Dict V × List DetailCall :=
  match t1 with
  | some store_data => (mergePayload m store_data, [DetailCall.store])
  | none =>
    match t2 with
    | some dealer_data =>
        (mergePayload m dealer_data, [DetailCall.store, DetailCall.dealer])
    | none => (m, [DetailCall.store, DetailCall.dealer])

/-- A BeautifulSoup tag: all that the source reads from it is its attribute
dict (`tag["href"]`). -/
structure Tag where
  attrs : Dict String
deriving DecidableEq

/-- BeautifulSoup item access `tag[k]`: `KeyError` when attribute `k` is absent. -/
def Tag.getItem (t : Tag) (k : String) : Except String String :=
  match getVal t.attrs k with
  | some v => Except.ok v
  | none => Except.error "KeyError"

/-- Model of `extract_urls_from_html(html)` (main.py lines 91-101).  `sel1` models
`soup.select_one("span.store-info-subtitle a")` applied to the parse of
`html`, `sel2` models `soup.select_one("a.js-get-directions")`; each returns
the first matching tag or `none`.  The source computes
`website_tag["href"] if website_tag else ""` and then
`maps_tag["href"] if maps_tag else ""`; an absent `href` attribute on a
matched tag raises.  `hrefResult` is that conditional expression: the
matched tag's `href` item, or `""` when the selector found nothing. -/
def hrefResult : Option Tag → Except String String
  | some t => t.getItem "href"
  | none => pure ""

/-- Model of `extract_urls_from_html(html)` proper (main.py lines 91-101). -/
def extract_urls_from_html (sel1 sel2 : String → Option Tag) (html : String) :
    Except String (String × String) := do
  let website_url ← hrefResult (sel1 html)
  let maps_url ← hrefResult (sel2 html)
  return (website_url, maps_url)

/-- The fixed CSV column schema `FIELDS` (main.py lines 41-54). -/
def FIELDS : List String :=
  ["name", "address", "has_enabled_affiliate", "phone", "city", "state",
   "country", "zip", "website_url", "maps_url", "lat", "lng"]

/-- The localized header names `HEADERS` (main.py lines 56-69). -/
def HEADERS : Dict String :=
  [("name", "Nombre de la tienda"), ("address", "Dirección"),
   ("has_enabled_affiliate", "Afiliado"), ("phone", "Teléfono"),
   ("city", "Ciudad"), ("state", "Provincia"), ("country", "País"),
   ("zip", "Código postal"), ("website_url", "Página web"),
   ("maps_url", "Google Maps"), ("lat", "Latitud"), ("lng", "Longitud")]

/-- The row written by `write_csv_header` (main.py lines 135-139). -/
def write_csv_header : List String :=
  FIELDS.map fun f => (getVal HEADERS f).getD f

/-- The row written by `write_csv_row` (main.py lines 142-146):
`marker.get(field, "")` per field. -/
def write_csv_row (m : Marker) : List String :=
  FIELDS.map fun f => (getVal m f).getD ""

/-- Constant `BOX_SIZE = 1.5` (main.py line 15). -/
def BOX_SIZE : ℚ := 3 / 2

/-- Constant `LATITUDE_RANGES` (main.py line 12). -/
def LATITUDE_RANGES : List (ℚ × ℚ) :=
  [(47, 30), (30, 27), (32.75, 32.75), (38.5, 38.5)]

/-- Constant `LONGITUDE_RANGES` (main.py line 13). -/
def LONGITUDE_RANGES : List (ℚ × ℚ) :=
  [(-13, 8), (-20, -12), (-17, -17), (-28.5, -28.5)]

/-- The latitude loop of `generate_bounding_boxes` (main.py lines 158-170):
`center_lat = start; while center_lat >= end: ...; center_lat -= BOX_SIZE`.
Emits the successive latitude grid centers. -/
def latAxisPoints (start e : ℚ) : List ℚ :=
  if h : e ≤ start then start :: latAxisPoints (start - BOX_SIZE) e
  else []
termination_by (⌊(start - e) / BOX_SIZE⌋ + 1).toNat
decreasing_by
  simp only [BOX_SIZE]
  have h1 : (start - 3 / 2 - e) / (3 / 2 : ℚ) = (start - e) / (3 / 2) - 1 := by
    ring
  have h2 : (0 : ℤ) ≤ ⌊(start - e) / (3 / 2 : ℚ)⌋ :=
    Int.floor_nonneg.mpr (div_nonneg (sub_nonneg.mpr h) (by norm_num))
  rw [h1, Int.floor_sub_one]
  omega

/-- The longitude loop of `generate_bounding_boxes` (main.py lines 160-168):
`center_lng = start; while center_lng <= end: ...; center_lng += BOX_SIZE`. -/
def lngAxisPoints (start e : ℚ) : List ℚ :=
  if h : start ≤ e then start :: lngAxisPoints (start + BOX_SIZE) e
  else []
termination_by (⌊(e - start) / BOX_SIZE⌋ + 1).toNat
decreasing_by
  simp only [BOX_SIZE]
  have h1 : (e - (start + 3 / 2)) / (3 / 2 : ℚ) = (e - start) / (3 / 2) - 1 := by
    ring
  have h2 : (0 : ℤ) ≤ ⌊(e - start) / (3 / 2 : ℚ)⌋ :=
    Int.floor_nonneg.mpr (div_nonneg (sub_nonneg.mpr h) (by norm_num))
  rw [h1, Int.floor_sub_one]
  omega

/-- A bounding box `(center_lat, center_lng, ne_lat, ne_lng, sw_lat, sw_lng)`. -/
abbrev Box := ℚ × ℚ × ℚ × ℚ × ℚ × ℚ

/-- The boxes yielded for one `(lat_range, lng_range)` pair of
`generate_bounding_boxes` (main.py lines 158-170). -/
def pairBoxes (slat elat slng elng : ℚ) : List Box :=
  (latAxisPoints slat elat).flatMap fun clat =>
    (lngAxisPoints slng elng).map fun clng =>
      (clat, clng, clat + BOX_SIZE, clng + BOX_SIZE,
       clat - BOX_SIZE, clng - BOX_SIZE)

/-- Model of `generate_bounding_boxes()` (main.py lines 149-170): zip the two range
lists and run the nested loops for each pair. -/
def generate_bounding_boxes : List Box :=
  (LATITUDE_RANGES.zip LONGITUDE_RANGES).flatMap fun pr =>
    pairBoxes pr.1.1 pr.1.2 pr.2.1 pr.2.2

/-- The country allow-list from `main` (main.py line 201). -/
def ALLOWED_COUNTRIES : List String := ["ES", "PT", "AD"]

/-- The filter test `marker.get("country") not in ["ES", "PT", "AD"]`
(main.py line 201), as the admission condition. -/
def countryAllowed (m : Marker) : Bool :=
  match getVal m "country" with
  | some c => ALLOWED_COUNTRIES.contains c
  | none => false

/-- Main-loop lines 206-212: read `store_html` (default `""`), extract the
two URLs from it, read the affiliate flag (default `""`), then assign
`marker["website_url"]`, `marker["maps_url"]`,
`marker["has_enabled_affiliate"]` in that order.  An extraction error
propagates (there is no handler in `main`). -/
def finalize_marker (sel1 sel2 : String → Option Tag) (m : Marker) :
    Except String Marker :=
  match extract_urls_from_html sel1 sel2 ((getVal m "store_html").getD "") with
  | Except.error e => Except.error e
  | Except.ok (website_url, maps_url) =>
    let affiliate := (getVal m "has_enabled_affiliate").getD ""
    Except.ok (setItem (setItem (setItem m "website_url" website_url)
      "maps_url" maps_url) "has_enabled_affiliate" affiliate)

/-- The external capabilities `main` consumes: the two CSS selectors of
`extract_urls_from_html` and the two detail endpoints keyed by
`marker.get("id")`. -/
structure Oracles where
  selSubtitle : String → Option Tag
  selDirections : String → Option Tag
  storeDetail : Option String → Option Payload
  dealerDetail : Option String → Option Payload

/-- The mutable state of `main`'s loop: `seen_ids`, `wrote_header`, the rows
handed to the CSV writer so far, plus two ghost logs — the finalized markers
written (`writtenMarkers`) and the identifier under which each written
marker was admitted (`writtenIds`). -/
structure RunState where
  seen : Finset (Option String)
  wroteHeader : Bool
  rows : List (List String)
  writtenMarkers : List Marker
  writtenIds : List (Option String)
deriving DecidableEq

/-- Main-loop lines 214-218: write the header first if it has not been
written, then the data row.  After any emission `wrote_header` is true. -/
def emitMarker (st : RunState) (sid : Option String) (m2 : Marker) : RunState :=
  { seen := st.seen,
    wroteHeader := true,
    rows := (if st.wroteHeader then st.rows else st.rows ++ [write_csv_header])
      ++ [write_csv_row m2],
    writtenMarkers := st.writtenMarkers ++ [m2],
    writtenIds := st.writtenIds ++ [sid] }

/-- One iteration of the marker loop (main.py lines 193-218): dedup check,
unconditional insertion into `seen_ids`, country filter, enrichment via
`fetch_store_data`, URL extraction and field assignment, emission.  The
`Option String` component is `some e` when the iteration raised. -/
def process_marker (o : Oracles) (st : RunState) (m : Marker) :
    RunState × Option String :=
  if getVal m "id" ∈ st.seen then (st, none)
  else if countryAllowed m then
    match finalize_marker o.selSubtitle o.selDirections
        (fetch_store_data (o.storeDetail (getVal m "id"))
          (o.dealerDetail (getVal m "id")) m).1 with
    | Except.ok m2 =>
        (emitMarker { st with seen := insert (getVal m "id") st.seen }
          (getVal m "id") m2, none)
    | Except.error e =>
        ({ st with seen := insert (getVal m "id") st.seen }, some e)
  else ({ st with seen := insert (getVal m "id") st.seen }, none)

/-- The marker loop over one box's `markers` array; stops at the first
uncaught exception. -/
def process_markers (o : Oracles) (st : RunState) :
    List Marker → RunState × Option String
  | [] => (st, none)
  | m :: rest =>
    match process_marker o st m with
    | (st1, none) => process_markers o st1 rest
    | (st1, some e) => (st1, some e)

/-- The box loop (main.py lines 180-220).  Each entry of `boxes` is the
outcome of the map-search query for one bounding box: `none` when the GET,
`raise_for_status` or `.json()` failed — that failure is caught by the
`try/except` at lines 183-190 and the loop continues — and
`some markers` on success. -/
def run_boxes (o : Oracles) (st : RunState) :
    List (Option (List Marker)) → RunState × Option String
  | [] => (st, none)
  | none :: rest => run_boxes o st rest
  | some ms :: rest =>
    match process_markers o st ms with
    | (st1, none) => run_boxes o st1 rest
    | (st1, some e) => (st1, some e)

/-- The state at the top of `main` (main.py lines 174-178). -/
def initState : RunState :=
  { seen := ∅, wroteHeader := false, rows := [],
    writtenMarkers := [], writtenIds := [] }

/-- Model of `main()` (main.py lines 173-220): `openOk` is whether
`open(OUTPUT_FILE, "w")` succeeded; on failure the exception propagates and
nothing runs (`none`); otherwise the box loop runs from the initial state. -/
def main_model (openOk : Bool) (o : Oracles)
    (boxes : List (Option (List Marker))) : Option (RunState × Option String) :=
  if openOk then some (run_boxes o initState boxes) else none

/-- Scenario marker: id "1", country ES. -/
def mkr1 : Marker := [("id", "1"), ("country", "ES")]

/-- Scenario marker: id "2", country FR. -/
def mkr2 : Marker := [("id", "2"), ("country", "FR")]

/-- Scenario marker: id "3", country PT. -/
def mkr3 : Marker := [("id", "3"), ("country", "PT")]

/-- Oracles where every selector misses and every detail request fails. -/
def noNet : Oracles :=
  ⟨fun _ => none, fun _ => none, fun _ => none, fun _ => none⟩

/-- Oracles where the store-subtitle selector matches an anchor that has no
`href` attribute (e.g. the parse of
`<span class="store-info-subtitle"><a>shop</a></span>`), and everything
else fails. -/
def badSel : Oracles :=
  ⟨fun _ => some ⟨[("class", "x")]⟩, fun _ => none, fun _ => none,
   fun _ => none⟩

/-- The end-to-end scenario of the spec: one box returns markers "1" (ES)
and "2" (FR); a later box returns "1" again and "3" (PT). -/
def scenarioBoxes : List (Option (List Marker)) :=
  [some [mkr1, mkr2], some [mkr1, mkr3]]

/-- The three fields appended to a scenario marker that had none of them,
when extraction misses and enrichment fails. -/
def finExtras : List (String × String) :=
  [("website_url", ""), ("maps_url", ""), ("has_enabled_affiliate", "")]

/-- A state that has already seen identifier "1". -/
def stSeen1 : RunState := { initState with seen := {some "1"} }

/-- The header-laziness invariant: either nothing has been emitted and no
header was written, or the header row sits exactly once at the head of the
output, followed by one data row per written marker. -/
def HeaderInv (st : RunState) : Prop :=
  (st.wroteHeader = false ∧ st.rows = [] ∧ st.writtenMarkers = []) ∨
  (st.wroteHeader = true ∧ st.writtenMarkers ≠ [] ∧
    st.rows = write_csv_header :: st.writtenMarkers.map write_csv_row)

/-- Every identifier under which a marker was written is in `seen_ids`. -/
def IdsInv (st : RunState) : Prop :=
  ∀ i ∈ st.writtenIds, i ∈ st.seen

/-- The selector oracles only produce tags carrying an `href` attribute. -/
def HrefTotal (o : Oracles) : Prop :=
  (∀ h t, o.selSubtitle h = some t → (getVal t.attrs "href").isSome) ∧
  (∀ h t, o.selDirections h = some t → (getVal t.attrs "href").isSome)

theorem getVal_nil {V : Type} (k : String) : getVal ([] : Dict V) k = none := rfl

theorem getVal_append {V : Type} (m l : Dict V) (k : String) :
    getVal (m ++ l) k =
      match getVal m k with
      | some v => some v
      | none => getVal l k := by
  induction m with
  | nil => simp [getVal]
  | cons kv rest ih =>
    obtain ⟨k', v⟩ := kv
    by_cases h : k' = k
    · simp [getVal, h]
    · simp [getVal, h, ih]

theorem getVal_append_of_some {V : Type} {m : Dict V} {k : String} {v : V}
    (l : Dict V) (h : getVal m k = some v) : getVal (m ++ l) k = some v := by
  rw [getVal_append, h]

theorem getVal_append_of_none {V : Type} {m : Dict V} {k : String}
    (l : Dict V) (h : getVal m k = none) : getVal (m ++ l) k = getVal l k := by
  rw [getVal_append, h]

theorem getVal_setdefault_of_some {V : Type} {m : Dict V} {k' : String} {v' : V}
    (k : String) (v : V) (h : getVal m k' = some v') :
    getVal (setdefault m k v) k' = some v' := by
  unfold setdefault
  cases hk : getVal m k with
  | some w => exact h
  | none => exact getVal_append_of_some _ h

theorem getVal_mergePayload_of_some {V : Type} {m : Dict V} {k : String} {v : V}
    (p : Dict V) (h : getVal m k = some v) :
    getVal (mergePayload m p) k = some v := by
  induction p generalizing m with
  | nil => exact h
  | cons kv rest ih =>
    unfold mergePayload at *
    simp only [List.foldl_cons]
    exact ih (getVal_setdefault_of_some kv.1 kv.2 h)

theorem getVal_mergePayload_of_none {V : Type} {m : Dict V} {k : String}
    (p : Dict V) (h : getVal m k = none) :
    getVal (mergePayload m p) k = getVal p k := by
  induction p generalizing m with
  | nil => simpa [mergePayload, getVal] using h
  | cons kv rest ih =>
    obtain ⟨k0, v0⟩ := kv
    unfold mergePayload at *
    simp only [List.foldl_cons]
    by_cases hk : k0 = k
    · subst hk
      have hm : setdefault m k0 v0 = m ++ [(k0, v0)] := by
        unfold setdefault
        rw [h]
      have hv : getVal (m ++ [(k0, v0)]) k0 = some v0 := by
        rw [getVal_append_of_none _ h]
        simp [getVal]
      rw [hm]
      have hsome := getVal_mergePayload_of_some rest hv
      unfold mergePayload at hsome
      rw [hsome]
      simp [getVal]
    · have hnone : getVal (setdefault m k0 v0) k = none := by
        unfold setdefault
        cases hk0 : getVal m k0 with
        | some w => exact h
        | none =>
          rw [getVal_append_of_none _ h]
          simp [getVal, hk]
      rw [ih hnone]
      simp [getVal, hk]

/-- Claim C1: the merge performed by `fetch_store_data` is fill-only — a key
already present on the marker keeps its value and is never overwritten by
the payload, a key absent from the marker is added with the payload's
value, and in particular merging marker `{a:1}` with payload `{a:2, b:3}`
yields `{a:1, b:3}`. -/
theorem claim_C1 (V : Type) :
    (∀ (m p : Dict V) (k : String) (v : V), getVal m k = some v →
      getVal (mergePayload m p) k = some v) ∧
    (∀ (m p : Dict V) (k : String), getVal m k = none →
      getVal (mergePayload m p) k = getVal p k) ∧
    mergePayload [("a", "1")] [("a", "2"), ("b", "3")] =
      [("a", "1"), ("b", "3")] := by
  refine ⟨?_, ?_, ?_⟩
  · intro m p k v h
    exact getVal_mergePayload_of_some p h
  · intro m p k h
    exact getVal_mergePayload_of_none p h
  · decide

/-- Witness for C1 at marker `{a:1}` and payload `{a:2, b:3}`. -/
theorem claim_C1_wit :
    (getVal [("a", "1")] "a" = some "1" ∧
      getVal (mergePayload [("a", "1")] [("a", "2"), ("b", "3")]) "a" =
        some "1") ∧
    (getVal [("a", "1")] "b" = (none : Option String) ∧
      getVal (mergePayload [("a", "1")] [("a", "2"), ("b", "3")]) "b" =
        getVal [("a", "2"), ("b", "3")] "b") :=
  ⟨⟨by decide, (claim_C1 String).1 _ _ "a" "1" (by decide)⟩,
   ⟨by decide, (claim_C1 String).2.1 _ _ "b" (by decide)⟩⟩

/-- Claim C3: `fetch_store_data` implements the two-tier fallback.  When the
store lookup succeeds the dealer endpoint is not called and the store
payload is merged fill-only; when the store lookup fails (for any reason)
the dealer endpoint is called exactly once and the store endpoint is not
retried; when both fail the marker keeps exactly its original fields and
the function still returns (totality of the embedding). -/
theorem claim_C3 {V : Type} (t1 t2 : Option (Dict V)) (m : Dict V) :
    (∀ d, t1 = some d →
      fetch_store_data t1 t2 m = (mergePayload m d, [DetailCall.store])) ∧
    (t1 = none →
      (fetch_store_data t1 t2 m).2 = [DetailCall.store, DetailCall.dealer]) ∧
    (t1 = none → ∀ d, t2 = some d →
      (fetch_store_data t1 t2 m).1 = mergePayload m d) ∧
    (t1 = none → t2 = none → (fetch_store_data t1 t2 m).1 = m) ∧
    (fetch_store_data t1 t2 m).2.count DetailCall.store = 1 ∧
    (fetch_store_data t1 t2 m).2.count DetailCall.dealer =
      (if t1.isSome then 0 else 1) := by
  cases t1 with
  | some d1 =>
    refine ⟨?_, ?_, ?_, ?_, ?_, ?_⟩ <;>
      simp [fetch_store_data, List.count_cons]
  | none =>
    cases t2 with
    | some d2 =>
      refine ⟨?_, ?_, ?_, ?_, ?_, ?_⟩ <;>
        simp [fetch_store_data, List.count_cons]
    | none =>
      refine ⟨?_, ?_, ?_, ?_, ?_, ?_⟩ <;>
        simp [fetch_store_data, List.count_cons]

/-- Witness for C3: a successful store lookup merges and skips the dealer
call; a run with both endpoints failing returns the marker unchanged. -/
theorem claim_C3_wit :
    fetch_store_data (some [("x", "1")]) none ([("id", "9")] : Dict String) =
      (mergePayload [("id", "9")] [("x", "1")], [DetailCall.store]) ∧
    (fetch_store_data none none ([("id", "9")] : Dict String)).1 =
      [("id", "9")] :=
  ⟨(claim_C3 (some [("x", "1")]) none [("id", "9")]).1 _ rfl,
   (claim_C3 none none [("id", "9")]).2.2.2.1 rfl rfl⟩

theorem latAxisPoints_len (e : ℚ) :
    ∀ (n : ℕ) (start : ℚ), e ≤ start →
      (⌊(start - e) / BOX_SIZE⌋).toNat = n →
      (latAxisPoints start e).length = n + 1 := by
  intro n
  induction n with
  | zero =>
    intro start h hn
    have h2 : (0 : ℤ) ≤ ⌊(start - e) / BOX_SIZE⌋ :=
      Int.floor_nonneg.mpr
        (div_nonneg (sub_nonneg.mpr h) (by norm_num [BOX_SIZE]))
    have hf : ⌊(start - e) / BOX_SIZE⌋ = 0 := by omega
    have hlt : (start - e) / BOX_SIZE < 1 := by
      have hx := Int.lt_floor_add_one ((start - e) / BOX_SIZE)
      rw [hf] at hx
      simpa using hx
    have hstep : start - BOX_SIZE < e := by
      rw [div_lt_one (by norm_num [BOX_SIZE] : (0 : ℚ) < BOX_SIZE)] at hlt
      simp only [BOX_SIZE] at hlt ⊢
      linarith
    rw [latAxisPoints, dif_pos h, latAxisPoints, dif_neg (not_le.mpr hstep)]
    rfl
  | succ n ih =>
    intro start h hn
    have h2 : (0 : ℤ) ≤ ⌊(start - e) / BOX_SIZE⌋ :=
      Int.floor_nonneg.mpr
        (div_nonneg (sub_nonneg.mpr h) (by norm_num [BOX_SIZE]))
    have hf : ⌊(start - e) / BOX_SIZE⌋ = n + 1 := by omega
    have hge : (1 : ℚ) ≤ (start - e) / BOX_SIZE := by
      have h1 : (1 : ℤ) ≤ ⌊(start - e) / BOX_SIZE⌋ := by omega
      exact_mod_cast Int.le_floor.mp h1
    have hstep : e ≤ start - BOX_SIZE := by
      rw [le_div_iff (by norm_num [BOX_SIZE] : (0 : ℚ) < BOX_SIZE)] at hge
      simp only [one_mul, BOX_SIZE] at hge ⊢
      linarith
    have hrec : (⌊(start - BOX_SIZE - e) / BOX_SIZE⌋).toNat = n := by
      have hkey : (start - BOX_SIZE - e) / BOX_SIZE =
          (start - e) / BOX_SIZE - 1 := by
        simp only [BOX_SIZE]
        ring
      rw [hkey, Int.floor_sub_one, hf]
      omega
    rw [latAxisPoints, dif_pos h]
    simp only [List.length_cons]
    rw [ih (start - BOX_SIZE) hstep hrec]

theorem lngAxisPoints_len (e : ℚ) :
    ∀ (n : ℕ) (start : ℚ), start ≤ e →
      (⌊(e - start) / BOX_SIZE⌋).toNat = n →
      (lngAxisPoints start e).length = n + 1 := by
  intro n
  induction n with
  | zero =>
    intro start h hn
    have h2 : (0 : ℤ) ≤ ⌊(e - start) / BOX_SIZE⌋ :=
      Int.floor_nonneg.mpr
        (div_nonneg (sub_nonneg.mpr h) (by norm_num [BOX_SIZE]))
    have hf : ⌊(e - start) / BOX_SIZE⌋ = 0 := by omega
    have hlt : (e - start) / BOX_SIZE < 1 := by
      have hx := Int.lt_floor_add_one ((e - start) / BOX_SIZE)
      rw [hf] at hx
      simpa using hx
    have hstep : e < start + BOX_SIZE := by
      rw [div_lt_one (by norm_num [BOX_SIZE] : (0 : ℚ) < BOX_SIZE)] at hlt
      simp only [BOX_SIZE] at hlt ⊢
      linarith
    rw [lngAxisPoints, dif_pos h, lngAxisPoints, dif_neg (not_le.mpr hstep)]
    rfl
  | succ n ih =>
    intro start h hn
    have h2 : (0 : ℤ) ≤ ⌊(e - start) / BOX_SIZE⌋ :=
      Int.floor_nonneg.mpr
        (div_nonneg (sub_nonneg.mpr h) (by norm_num [BOX_SIZE]))
    have hf : ⌊(e - start) / BOX_SIZE⌋ = n + 1 := by omega
    have hge : (1 : ℚ) ≤ (e - start) / BOX_SIZE := by
      have h1 : (1 : ℤ) ≤ ⌊(e - start) / BOX_SIZE⌋ := by omega
      exact_mod_cast Int.le_floor.mp h1
    have hstep : start + BOX_SIZE ≤ e := by
      rw [le_div_iff (by norm_num [BOX_SIZE] : (0 : ℚ) < BOX_SIZE)] at hge
      simp only [one_mul, BOX_SIZE] at hge ⊢
      linarith
    have hrec : (⌊(e - (start + BOX_SIZE)) / BOX_SIZE⌋).toNat = n := by
      have hkey : (e - (start + BOX_SIZE)) / BOX_SIZE =
          (e - start) / BOX_SIZE - 1 := by
        simp only [BOX_SIZE]
        ring
      rw [hkey, Int.floor_sub_one, hf]
      omega
    rw [lngAxisPoints, dif_pos h]
    simp only [List.length_cons]
    rw [ih (start + BOX_SIZE) hstep hrec]

theorem pairBoxes_len (slat elat slng elng : ℚ) :
    (pairBoxes slat elat slng elng).length =
      (latAxisPoints slat elat).length * (lngAxisPoints slng elng).length := by
  unfold pairBoxes
  induction latAxisPoints slat elat with
  | nil => simp
  | cons a t ih =>
    simp only [List.flatMap_cons, List.length_append, List.length_map, ih,
      List.length_cons, Nat.succ_mul]
    omega

/-- Claim C4: for ranges whose direction allows forward iteration (latitude
start at least its end, longitude start at most its end), the generator
emits `floor(|end - start| / step) + 1` grid positions along each axis with
step `BOX_SIZE`; a degenerate range gives exactly one position on its axis,
and the pair yields the product of the two counts. -/
theorem claim_C4 (slat elat slng elng : ℚ)
    (hlat : elat ≤ slat) (hlng : slng ≤ elng) :
    (latAxisPoints slat elat).length =
      (⌊(slat - elat) / BOX_SIZE⌋).toNat + 1 ∧
    (lngAxisPoints slng elng).length =
      (⌊(elng - slng) / BOX_SIZE⌋).toNat + 1 ∧
    (slat = elat → (latAxisPoints slat elat).length = 1) ∧
    (slng = elng → (lngAxisPoints slng elng).length = 1) ∧
    (pairBoxes slat elat slng elng).length =
      ((⌊(slat - elat) / BOX_SIZE⌋).toNat + 1) *
        ((⌊(elng - slng) / BOX_SIZE⌋).toNat + 1) := by
  have p1 := latAxisPoints_len elat _ slat hlat rfl
  have p2 := lngAxisPoints_len elng _ slng hlng rfl
  refine ⟨p1, p2, ?_, ?_, ?_⟩
  · intro hdeg
    rw [p1, hdeg]
    simp
  · intro hdeg
    rw [p2, hdeg]
    simp
  · rw [pairBoxes_len, p1, p2]

/-- Witness for C4 at the second configured range pair
`(30, 27) × (-20, -12)`. -/
theorem claim_C4_wit :
    ((27 : ℚ) ≤ 30 ∧ (-20 : ℚ) ≤ -12) ∧
    (latAxisPoints 30 27).length =
      (⌊((30 : ℚ) - 27) / BOX_SIZE⌋).toNat + 1 :=
  ⟨⟨by norm_num, by norm_num⟩,
   (claim_C4 30 27 (-20) (-12) (by norm_num) (by norm_num)).1⟩

/-- Claim C9: the generator iterates latitude only downward and longitude
only upward; a pair whose latitude range has start < end, or whose
longitude range has start > end, silently yields zero bounding boxes. -/
theorem claim_C9 (slat elat slng elng : ℚ) :
    (slat < elat → latAxisPoints slat elat = []) ∧
    (elng < slng → lngAxisPoints slng elng = []) ∧
    (slat < elat ∨ elng < slng → pairBoxes slat elat slng elng = []) := by
  have hlat : slat < elat → latAxisPoints slat elat = [] := by
    intro h
    rw [latAxisPoints, dif_neg (not_le.mpr h)]
  have hlng : elng < slng → lngAxisPoints slng elng = [] := by
    intro h
    rw [lngAxisPoints, dif_neg (not_le.mpr h)]
  refine ⟨hlat, hlng, ?_⟩
  intro hor
  cases hor with
  | inl h =>
    unfold pairBoxes
    rw [hlat h]
    rfl
  | inr h =>
    unfold pairBoxes
    rw [hlng h]
    simp

/-- Witness for C9: a reversed latitude range yields no points, and a fully
reversed pair yields no boxes. -/
theorem claim_C9_wit :
    ((0 : ℚ) < 1 ∧ latAxisPoints 0 1 = []) ∧
    ((0 : ℚ) < 1 ∧ pairBoxes 0 1 1 0 = []) :=
  ⟨⟨by norm_num, (claim_C9 0 1 0 0).1 (by norm_num)⟩,
   ⟨by norm_num, (claim_C9 0 1 1 0).2.2 (Or.inl (by norm_num))⟩⟩

theorem getVal_setItem_self {V : Type} (m : Dict V) (k : String) (v : V) :
    getVal (setItem m k v) k = some v := by
  induction m with
  | nil => simp [setItem, getVal]
  | cons kv rest ih =>
    obtain ⟨k0, v0⟩ := kv
    by_cases h : k0 = k
    · simp [setItem, h, getVal]
    · simp [setItem, h, getVal, ih]

theorem getVal_setItem_other {V : Type} (m : Dict V) {k k' : String} (v : V)
    (h : k' ≠ k) : getVal (setItem m k v) k' = getVal m k' := by
  induction m with
  | nil => simp [setItem, getVal, h.symm]
  | cons kv rest ih =>
    obtain ⟨k0, v0⟩ := kv
    by_cases h0 : k0 = k
    · subst h0
      simp [setItem, getVal, h.symm]
    · simp [setItem, getVal, h0, ih]

theorem hrefResult_eq (ot : Option Tag) (w : String)
    (h : match ot with
      | none => w = ""
      | some t => getVal t.attrs "href" = some w) :
    hrefResult ot = Except.ok w := by
  cases ot with
  | none =>
    have h' : w = "" := h
    subst h'
    rfl
  | some t =>
    have h' : getVal t.attrs "href" = some w := h
    simp [hrefResult, Tag.getItem, h']

/-- Claim C5 (amended): `extract_urls_from_html` returns normally on every
input whose matched anchors carry an `href` attribute: when the
store-subtitle selector matches nothing the website URL is `""`, when the
get-directions selector matches nothing the maps URL is `""`, and when a
selector matches an anchor with an `href` that href is extracted exactly.
(The unamended claim — no exception for every HTML input — is refuted by
`claim_C5_counterexample`.) -/
theorem claim_C5 (sel1 sel2 : String → Option Tag) (html : String)
    (w u : String)
    (h1 : match sel1 html with
      | none => w = ""
      | some t => getVal t.attrs "href" = some w)
    (h2 : match sel2 html with
      | none => u = ""
      | some t => getVal t.attrs "href" = some u) :
    extract_urls_from_html sel1 sel2 html = Except.ok (w, u) := by
  have e1 := hrefResult_eq (sel1 html) w h1
  have e2 := hrefResult_eq (sel2 html) u h2
  unfold extract_urls_from_html
  rw [e1, e2]
  rfl

/-- Witness for C5: no subtitle match gives `""`, a single directions match
with `href="G"` extracts exactly `"G"`. -/
theorem claim_C5_wit :
    extract_urls_from_html (fun _ => none)
      (fun _ => some ⟨[("href", "G")]⟩) "<html></html>" =
      Except.ok ("", "G") :=
  claim_C5 (fun _ => none) (fun _ => some ⟨[("href", "G")]⟩)
    "<html></html>" "" "G" rfl rfl

/-- Counterexample to C5 as stated: on HTML whose store-subtitle pattern
matches an anchor without an `href` attribute (e.g.
`<span class=store-info-subtitle><a>shop</a></span>`), the lookup
`website_tag["href"]` raises instead of returning. -/
theorem claim_C5_counterexample :
    extract_urls_from_html (fun _ => some ⟨[("class", "x")]⟩)
      (fun _ => none) "<span class=store-info-subtitle><a>shop</a></span>" =
      Except.error "KeyError" := rfl

/-- Claim C10: after the post-merge step of `main`, `website_url` and
`maps_url` hold exactly the values extracted from the marker's
`store_html` (overwriting whatever the fields held before), the
`has_enabled_affiliate` field holds its pre-step value defaulted to `""`,
and every other key keeps its value. -/
theorem claim_C10 (sel1 sel2 : String → Option Tag) (m m2 : Marker)
    (w u : String)
    (hx : extract_urls_from_html sel1 sel2 ((getVal m "store_html").getD "") =
      Except.ok (w, u))
    (hf : finalize_marker sel1 sel2 m = Except.ok m2) :
    getVal m2 "website_url" = some w ∧
    getVal m2 "maps_url" = some u ∧
    getVal m2 "has_enabled_affiliate" =
      some ((getVal m "has_enabled_affiliate").getD "") ∧
    ∀ k, k ≠ "website_url" → k ≠ "maps_url" → k ≠ "has_enabled_affiliate" →
      getVal m2 k = getVal m k := by
  unfold finalize_marker at hf
  rw [hx] at hf
  have hf' : (Except.ok
      (setItem (setItem (setItem m "website_url" w) "maps_url" u)
        "has_enabled_affiliate" ((getVal m "has_enabled_affiliate").getD "")) :
      Except String Marker) = Except.ok m2 := hf
  have hm2 := Except.ok.inj hf'
  subst hm2
  refine ⟨?_, ?_, ?_, ?_⟩
  · rw [getVal_setItem_other _ _ (by decide),
      getVal_setItem_other _ _ (by decide), getVal_setItem_self]
  · rw [getVal_setItem_other _ _ (by decide), getVal_setItem_self]
  · rw [getVal_setItem_self]
  · intro k hk1 hk2 hk3
    rw [getVal_setItem_other _ _ hk3, getVal_setItem_other _ _ hk2,
      getVal_setItem_other _ _ hk1]

/-- Witness for C10: a marker carrying an old `website_url` has it replaced
by the freshly extracted one, and keeps its other fields. -/
theorem claim_C10_wit :
    extract_urls_from_html (fun _ => some ⟨[("href", "W")]⟩) (fun _ => none)
      ((getVal [("store_html", "x"), ("has_enabled_affiliate", "1"),
        ("website_url", "OLD")] "store_html").getD "") =
      Except.ok ("W", "") ∧
    getVal [("store_html", "x"), ("has_enabled_affiliate", "1"),
      ("website_url", "W"), ("maps_url", "")] "website_url" = some "W" ∧
    getVal [("store_html", "x"), ("has_enabled_affiliate", "1"),
      ("website_url", "W"), ("maps_url", "")] "store_html" =
      getVal [("store_html", "x"), ("has_enabled_affiliate", "1"),
        ("website_url", "OLD")] "store_html" :=
  ⟨rfl,
   (claim_C10 (fun _ => some ⟨[("href", "W")]⟩) (fun _ => none)
     [("store_html", "x"), ("has_enabled_affiliate", "1"),
      ("website_url", "OLD")]
     [("store_html", "x"), ("has_enabled_affiliate", "1"),
      ("website_url", "W"), ("maps_url", "")] "W" "" rfl rfl).1,
   (claim_C10 (fun _ => some ⟨[("href", "W")]⟩) (fun _ => none)
     [("store_html", "x"), ("has_enabled_affiliate", "1"),
      ("website_url", "OLD")]
     [("store_html", "x"), ("has_enabled_affiliate", "1"),
      ("website_url", "W"), ("maps_url", "")] "W" "" rfl rfl).2.2.2
     "store_html" (by decide) (by decide) (by decide)⟩

theorem process_markers_cons (o : Oracles) (st : RunState) (m : Marker)
    (rest : List Marker) :
    process_markers o st (m :: rest) =
      match process_marker o st m with
      | (st1, none) => process_markers o st1 rest
      | (st1, some e) => (st1, some e) := rfl

theorem run_boxes_none_cons (o : Oracles) (st : RunState)
    (rest : List (Option (List Marker))) :
    run_boxes o st (none :: rest) = run_boxes o st rest := rfl

theorem run_boxes_some_cons (o : Oracles) (st : RunState) (ms : List Marker)
    (rest : List (Option (List Marker))) :
    run_boxes o st (some ms :: rest) =
      match process_markers o st ms with
      | (st1, none) => run_boxes o st1 rest
      | (st1, some e) => (st1, some e) := rfl

theorem process_markers_pres (o : Oracles) (P : RunState → Prop)
    (hstep : ∀ st m, P st → P (process_marker o st m).1) :
    ∀ (ms : List Marker) (st : RunState), P st → P (process_markers o st ms).1 := by
  intro ms
  induction ms with
  | nil =>
    intro st h
    exact h
  | cons m rest ih =>
    intro st h
    have hm := hstep st m h
    cases hpm : process_marker o st m with
    | mk st1 err =>
      rw [hpm] at hm
      rw [process_markers_cons, hpm]
      cases err with
      | none => exact ih st1 hm
      | some e => exact hm

theorem run_boxes_pres (o : Oracles) (P : RunState → Prop)
    (hstep : ∀ st m, P st → P (process_marker o st m).1) :
    ∀ (boxes : List (Option (List Marker))) (st : RunState),
      P st → P (run_boxes o st boxes).1 := by
  intro boxes
  induction boxes with
  | nil =>
    intro st h
    exact h
  | cons b rest ih =>
    intro st h
    cases b with
    | none =>
      rw [run_boxes_none_cons]
      exact ih st h
    | some ms =>
      have hm := process_markers_pres o P hstep ms st h
      cases hpm : process_markers o st ms with
      | mk st1 err =>
        rw [hpm] at hm
        rw [run_boxes_some_cons, hpm]
        cases err with
        | none => exact ih st1 hm
        | some e => exact hm

theorem process_marker_skip (o : Oracles) (st : RunState) (m : Marker)
    (h : getVal m "id" ∈ st.seen) : process_marker o st m = (st, none) := by
  unfold process_marker
  rw [if_pos h]

theorem process_marker_seen (o : Oracles) (st : RunState) (m : Marker) :
    (process_marker o st m).1.seen =
      if getVal m "id" ∈ st.seen then st.seen
      else insert (getVal m "id") st.seen := by
  unfold process_marker
  by_cases h1 : getVal m "id" ∈ st.seen
  · rw [if_pos h1, if_pos h1]
  · rw [if_neg h1, if_neg h1]
    by_cases h2 : countryAllowed m
    · rw [if_pos h2]
      cases hf : finalize_marker o.selSubtitle o.selDirections
          (fetch_store_data (o.storeDetail (getVal m "id"))
            (o.dealerDetail (getVal m "id")) m).1 with
      | ok m2 => rfl
      | error e => rfl
    · rw [if_neg h2]

theorem process_marker_seen_mono (o : Oracles) (st : RunState) (m : Marker) :
    st.seen ⊆ (process_marker o st m).1.seen := by
  rw [process_marker_seen]
  by_cases h1 : getVal m "id" ∈ st.seen
  · rw [if_pos h1]
  · rw [if_neg h1]
    exact Finset.subset_insert _ _

theorem process_marker_IdsInv (o : Oracles) (st : RunState) (m : Marker)
    (h : IdsInv st) : IdsInv (process_marker o st m).1 := by
  unfold process_marker
  by_cases h1 : getVal m "id" ∈ st.seen
  · rw [if_pos h1]
    exact h
  · rw [if_neg h1]
    by_cases h2 : countryAllowed m
    · rw [if_pos h2]
      cases hf : finalize_marker o.selSubtitle o.selDirections
          (fetch_store_data (o.storeDetail (getVal m "id"))
            (o.dealerDetail (getVal m "id")) m).1 with
      | ok m2 =>
        intro i hi
        have hi' : i ∈ st.writtenIds ++ [getVal m "id"] := hi
        rcases List.mem_append.mp hi' with hold | hnew
        · exact Finset.mem_insert_of_mem (h i hold)
        · have : i = getVal m "id" := by simpa using hnew
          subst this
          exact Finset.mem_insert_self _ _
      | error e =>
        intro i hi
        exact Finset.mem_insert_of_mem (h i hi)
    · rw [if_neg h2]
      intro i hi
      exact Finset.mem_insert_of_mem (h i hi)

theorem process_marker_HeaderInv (o : Oracles) (st : RunState) (m : Marker)
    (h : HeaderInv st) : HeaderInv (process_marker o st m).1 := by
  unfold process_marker
  by_cases h1 : getVal m "id" ∈ st.seen
  · rw [if_pos h1]
    exact h
  · rw [if_neg h1]
    by_cases h2 : countryAllowed m
    · rw [if_pos h2]
      cases hf : finalize_marker o.selSubtitle o.selDirections
          (fetch_store_data (o.storeDetail (getVal m "id"))
            (o.dealerDetail (getVal m "id")) m).1 with
      | ok m2 =>
        cases h with
        | inl hl =>
          obtain ⟨hw, hr, hm0⟩ := hl
          right
          refine ⟨rfl, ?_, ?_⟩
          · simp [emitMarker, hm0]
          · simp [emitMarker, hw, hr, hm0]
        | inr hr =>
          obtain ⟨hw, hne, hrows⟩ := hr
          right
          refine ⟨rfl, ?_, ?_⟩
          · simp [emitMarker]
          · simp [emitMarker, hw, hrows]
      | error e => exact h
    · rw [if_neg h2]
      exact h

theorem hrefResult_ok_of (ot : Option Tag)
    (h : ∀ t, ot = some t → (getVal t.attrs "href").isSome) :
    ∃ w, hrefResult ot = Except.ok w := by
  cases ot with
  | none => exact ⟨"", rfl⟩
  | some t =>
    have hs := h t rfl
    cases hv : getVal t.attrs "href" with
    | none =>
      rw [hv] at hs
      simp at hs
    | some v => exact ⟨v, by simp [hrefResult, Tag.getItem, hv]⟩

theorem extract_ok_of (sel1 sel2 : String → Option Tag) (html : String)
    (h1 : ∃ w, hrefResult (sel1 html) = Except.ok w)
    (h2 : ∃ u, hrefResult (sel2 html) = Except.ok u) :
    ∃ w u, extract_urls_from_html sel1 sel2 html = Except.ok (w, u) := by
  obtain ⟨w, e1⟩ := h1
  obtain ⟨u, e2⟩ := h2
  refine ⟨w, u, ?_⟩
  unfold extract_urls_from_html
  rw [e1, e2]
  rfl

theorem finalize_ok_of (o : Oracles) (ho : HrefTotal o) (m : Marker) :
    ∃ m2, finalize_marker o.selSubtitle o.selDirections m = Except.ok m2 := by
  obtain ⟨w, u, hx⟩ := extract_ok_of o.selSubtitle o.selDirections
    ((getVal m "store_html").getD "")
    (hrefResult_ok_of _ (fun t ht => ho.1 _ t ht))
    (hrefResult_ok_of _ (fun t ht => ho.2 _ t ht))
  refine ⟨setItem (setItem (setItem m "website_url" w) "maps_url" u)
    "has_enabled_affiliate" ((getVal m "has_enabled_affiliate").getD ""), ?_⟩
  unfold finalize_marker
  rw [hx]

theorem process_marker_noerr (o : Oracles) (ho : HrefTotal o)
    (st : RunState) (m : Marker) : (process_marker o st m).2 = none := by
  unfold process_marker
  by_cases h1 : getVal m "id" ∈ st.seen
  · rw [if_pos h1]
  · rw [if_neg h1]
    by_cases h2 : countryAllowed m
    · rw [if_pos h2]
      obtain ⟨m2, hf⟩ := finalize_ok_of o ho
        (fetch_store_data (o.storeDetail (getVal m "id"))
          (o.dealerDetail (getVal m "id")) m).1
      rw [hf]
    · rw [if_neg h2]

theorem process_markers_noerr (o : Oracles) (ho : HrefTotal o) :
    ∀ (ms : List Marker) (st : RunState), (process_markers o st ms).2 = none := by
  intro ms
  induction ms with
  | nil =>
    intro st
    rfl
  | cons m rest ih =>
    intro st
    rw [process_markers_cons]
    cases hpm : process_marker o st m with
    | mk st1 err =>
      have he : err = none := by
        have hn := process_marker_noerr o ho st m
        rw [hpm] at hn
        exact hn
      subst he
      exact ih st1

theorem run_boxes_noerr (o : Oracles) (ho : HrefTotal o) :
    ∀ (boxes : List (Option (List Marker))) (st : RunState),
      (run_boxes o st boxes).2 = none := by
  intro boxes
  induction boxes with
  | nil =>
    intro st
    rfl
  | cons b rest ih =>
    intro st
    cases b with
    | none =>
      rw [run_boxes_none_cons]
      exact ih st
    | some ms =>
      rw [run_boxes_some_cons]
      cases hpm : process_markers o st ms with
      | mk st1 err =>
        have he : err = none := by
          have hn := process_markers_noerr o ho ms st
          rw [hpm] at hn
          exact hn
        subst he
        exact ih st1

/-- Claim C2: the dedup ledger of `main`.  A marker whose identifier is
already in `seen_ids` is rejected with no state change at all; a first-seen
identifier lands in `seen_ids` even when the country filter then rejects
the marker; over any run `seen_ids` only grows; and every identifier ever
admitted (written) is in the final `seen_ids`. -/
theorem claim_C2 (o : Oracles) (st : RunState) (m : Marker)
    (boxes : List (Option (List Marker))) :
    (getVal m "id" ∈ st.seen → process_marker o st m = (st, none)) ∧
    (getVal m "id" ∉ st.seen →
      getVal m "id" ∈ (process_marker o st m).1.seen) ∧
    st.seen ⊆ (run_boxes o st boxes).1.seen ∧
    (∀ i ∈ (run_boxes o initState boxes).1.writtenIds,
      i ∈ (run_boxes o initState boxes).1.seen) := by
  refine ⟨process_marker_skip o st m, ?_, ?_, ?_⟩
  · intro h
    rw [process_marker_seen, if_neg h]
    exact Finset.mem_insert_self _ _
  · exact run_boxes_pres o (fun s => st.seen ⊆ s.seen)
      (fun st' m' h => h.trans (process_marker_seen_mono o st' m'))
      boxes st (Finset.Subset.refl _)
  · exact run_boxes_pres o IdsInv
      (fun st' m' h => process_marker_IdsInv o st' m' h)
      boxes initState (fun i hi => by simp [initState] at hi)

/-- Witness for C2: identifier "1" already seen is rejected without state
change; identifier "2" (country FR, filtered out) is still marked seen. -/
theorem claim_C2_wit :
    (getVal mkr1 "id" ∈ stSeen1.seen ∧
      process_marker noNet stSeen1 mkr1 = (stSeen1, none)) ∧
    (getVal mkr2 "id" ∉ stSeen1.seen ∧
      getVal mkr2 "id" ∈ (process_marker noNet stSeen1 mkr2).1.seen) ∧
    (∀ i ∈ (run_boxes noNet initState scenarioBoxes).1.writtenIds,
      i ∈ (run_boxes noNet initState scenarioBoxes).1.seen) :=
  ⟨⟨by decide, (claim_C2 noNet stSeen1 mkr1 scenarioBoxes).1 (by decide)⟩,
   ⟨by decide, (claim_C2 noNet stSeen1 mkr2 scenarioBoxes).2.1 (by decide)⟩,
   (claim_C2 noNet initState mkr1 scenarioBoxes).2.2.2⟩

/-- Claim C6: the end-to-end scenario.  A first box returns markers "1"
(ES) and "2" (FR), a later box returns "1" again and "3" (PT); exactly two
data rows are written, for ids "1" and "3" in that order, "2" being
rejected by the country filter and the second "1" by deduplication. -/
theorem claim_C6 :
    (run_boxes noNet initState scenarioBoxes).2 = none ∧
    (run_boxes noNet initState scenarioBoxes).1.writtenIds =
      [some "1", some "3"] ∧
    (run_boxes noNet initState scenarioBoxes).1.writtenMarkers =
      [mkr1 ++ finExtras, mkr3 ++ finExtras] ∧
    (run_boxes noNet initState scenarioBoxes).1.rows =
      [write_csv_header, write_csv_row (mkr1 ++ finExtras),
       write_csv_row (mkr3 ++ finExtras)] := by
  refine ⟨rfl, rfl, rfl, rfl⟩

/-- Claim C7 (amended): a failed box query is skipped with no effect and
the scan continues; failure to open the output sink aborts the run before
anything happens; and when every selector match carries an `href` the run
never aborts mid-scan.  (The unamended "only sink-open failure aborts" is
refuted by `claim_C7_counterexample`: a markup-extraction `KeyError` also
aborts.) -/
theorem claim_C7 (o : Oracles) (st : RunState)
    (boxes rest : List (Option (List Marker))) :
    run_boxes o st (none :: rest) = run_boxes o st rest ∧
    main_model false o boxes = none ∧
    (HrefTotal o → (run_boxes o st boxes).2 = none) := by
  refine ⟨run_boxes_none_cons o st rest, rfl, ?_⟩
  intro ho
  exact run_boxes_noerr o ho boxes st

/-- Witness for C7: with all-failing oracles (which trivially satisfy the
href-totality hypothesis) a failed first box is a no-op and the scenario
run finishes without an uncaught exception. -/
theorem claim_C7_wit :
    run_boxes noNet initState (none :: scenarioBoxes) =
      run_boxes noNet initState scenarioBoxes ∧
    (run_boxes noNet initState scenarioBoxes).2 = none :=
  ⟨(claim_C7 noNet initState scenarioBoxes scenarioBoxes).1,
   (claim_C7 noNet initState scenarioBoxes scenarioBoxes).2.2
     (And.intro (fun h t ht => by simp [noNet] at ht)
       (fun h t ht => by simp [noNet] at ht))⟩

/-- Counterexample to C7 as stated: with the output sink opened
successfully, a run in which the store-subtitle selector matches an
`href`-less anchor aborts mid-scan with a `KeyError` — so sink-open failure
is not the only condition that aborts the entire run. -/
theorem claim_C7_counterexample :
    (run_boxes badSel initState [some [mkr1]]).2 = some "KeyError" ∧
    main_model true badSel [some [mkr1]] =
      some (run_boxes badSel initState [some [mkr1]]) := by
  refine ⟨rfl, rfl⟩

/-- Claim C8: over any run the header row is written at most once; it is
written exactly once, immediately before the first data row, as soon as one
marker is admitted; and a run admitting no marker writes no header. -/
theorem claim_C8 (o : Oracles) (boxes : List (Option (List Marker))) :
    (run_boxes o initState boxes).1.rows =
      match (run_boxes o initState boxes).1.writtenMarkers with
      | [] => []
      | x :: xs => write_csv_header :: (x :: xs).map write_csv_row := by
  have hinv : HeaderInv (run_boxes o initState boxes).1 :=
    run_boxes_pres o HeaderInv (fun st m h => process_marker_HeaderInv o st m h)
      boxes initState (Or.inl ⟨rfl, rfl, rfl⟩)
  cases hinv with
  | inl hl =>
    obtain ⟨hw, hr, hm⟩ := hl
    rw [hr, hm]
  | inr hr =>
    obtain ⟨hw, hne, hrows⟩ := hr
    rw [hrows]
    cases hwm : (run_boxes o initState boxes).1.writtenMarkers with
    | nil => exact absurd hwm hne
    | cons a t => rfl

end HH
